import Mathlib

/-!
Verification of the Gym-Logger statistics and session logic.

The definitions below are shallow embeddings of the client-side logic:
`calculateStreak`, the recent-workout window count and the dashboard
fetch (src/components/dashboard/Dashboard.tsx), the food totals and the
mock food search (the FoodTracker component), the workout-session timer
(src/components/workouts/WorkoutSession.tsx), and the read-failure
handling of the data-fetching functions.  Timestamps are modelled as
integer milliseconds since the epoch, calendar days as integer day
numbers (the `yyyy-MM-dd` extraction of a timestamp is floor division
by the number of milliseconds in a day).
-/

namespace GymLogger

/-- Milliseconds in one calendar day (the `86400000` constant of the source). -/
def msPerDay : Int := 86400000

/-- A completed workout row as fetched by the dashboard: title, completion
timestamp in milliseconds, duration in seconds. -/
structure WorkoutRow where
  title : String
  completed_at : Int
  duration : Int
deriving DecidableEq

/-- Calendar-day extraction of a timestamp, the model of
`format(parseISO(w.completed_at), 'yyyy-MM-dd')`. -/
def dayOf (t : Int) : Int := t.fdiv msPerDay

/-- A workout row completed at midnight of day `d` (used to build concrete inputs). -/
def onDay (d : Int) : WorkoutRow := ⟨"", d * msPerDay, 0⟩

/-- The JS `filter((date, index, arr) => arr.indexOf(date) === index)` dedup,
which keeps the first occurrence of each value, with an accumulator of the
values already seen. -/
def dedupFirstAux (seen : List Int) : List Int → List Int
  | [] => []
  | a :: l => if a ∈ seen then dedupFirstAux seen l else a :: dedupFirstAux (a :: seen) l

/-- First-occurrence deduplication, as in `calculateStreak` line 81. -/
def dedupFirst (l : List Int) : List Int := dedupFirstAux [] l

/-- Descending sort of the deduplicated dates (`sort((a, b) => b - a)` on times). -/
def sortDesc (l : List Int) : List Int := l.insertionSort (fun a b => a ≥ b)

/-- The `for (const workoutDate of workoutDates)` loop of `calculateStreak`:
`currentDate - d` is `differenceInDays(currentDate, workoutDate)` on
day-granular dates; a difference of 0 advances the cursor one day back,
a difference of 1 moves the cursor onto the matched date, anything else
breaks out of the loop. -/
def streakLoop : List Int → Int → Nat → Nat
  | [], _, streak => streak
  | d :: rest, currentDate, streak =>
    if currentDate - d = 0 then streakLoop rest (currentDate - 1) (streak + 1)
    else if currentDate - d = 1 then streakLoop rest d (streak + 1)
    else streak

/-- `calculateStreak` from Dashboard.tsx lines 75-102: empty guard, then
map completions to calendar days, dedupe keeping first occurrences, sort
descending, and walk with `streakLoop` starting from the reference day. -/
def calculateStreak (workouts : List WorkoutRow) (today : Int) : Nat :=
  match workouts with
  | [] => 0
  | _ :: _ =>
    streakLoop (sortDesc (dedupFirst (workouts.map (fun w => dayOf w.completed_at)))) today 0

/-- `differenceInDays` of date-fns on millisecond timestamps: the number of
full days between the instants, truncated toward zero. -/
def differenceInDays (a b : Int) : Int := (a - b).tdiv msPerDay

/-- The spec's `countRecent`: the dashboard's
`filter(w => differenceInDays(new Date(), parseISO(w.completed_at)) < windowDays).length`. -/
def countRecent (records : List WorkoutRow) (referenceDate windowDays : Int) : Nat :=
  (records.filter (fun w => decide (differenceInDays referenceDate w.completed_at < windowDays))).length

/-- `const recentWorkouts = (workouts || []).slice(0, 5)` (Dashboard.tsx line 49). -/
def recentWorkouts (workouts : List WorkoutRow) : List WorkoutRow := workouts.take 5

/-- The dashboard view state set by `fetchDashboardData`. -/
structure DashboardStats where
  currentStreak : Nat
  totalWorkouts : Nat
  totalCalories : ℚ
  recentWorkouts : List WorkoutRow
deriving DecidableEq

/-- The initial `useState` value of the dashboard stats. -/
def initialStats : DashboardStats := ⟨0, 0, 0, []⟩

/-- Outcome of one remote read: either the promise rejected (`thrown`, caught
by the surrounding try/catch) or a supabase-style response carrying optional
data and an optional error. -/
inductive ReadOutcome (α : Type) where
  | thrown : String → ReadOutcome α
  | result : Option α → Option String → ReadOutcome α

/-- `fetchDashboardData` (Dashboard.tsx lines 35-73) as a function of the two
read outcomes: a rejection of either read aborts the `try` block before
`setStats`, leaving the initial stats; otherwise null data is coalesced to
an empty list, and streak, totals and the recent slice are computed. -/
def fetchDashboardData (today : Int) (workoutsRead : ReadOutcome (List WorkoutRow))
    (caloriesRead : ReadOutcome (List ℚ)) : DashboardStats :=
  match workoutsRead with
  | .thrown _ => initialStats
  | .result wdata _ =>
    match caloriesRead with
    | .thrown _ => initialStats
    | .result cdata _ =>
      let ws := wdata.getD []
      { currentStreak := calculateStreak ws today
        totalWorkouts := ws.length
        totalCalories := (cdata.getD []).foldl (fun sum c => sum + c) 0
        recentWorkouts := recentWorkouts ws }

/-- The "This Week" card of the dashboard: the 7-day window count taken over
the `recentWorkouts` field of the stats (Dashboard.tsx lines 171-173). -/
def thisWeekCount (stats : DashboardStats) (now : Int) : Nat :=
  countRecent stats.recentWorkouts now 7

/-- `fetchRoutines` (RoutineList) as a function of the read outcome and the
state before the call: a rejected promise or a response carrying an error is
caught and leaves the state unchanged; on success null data becomes `[]`. -/
def fetchRoutinesState {α : Type} (init : List α) : ReadOutcome (List α) → List α
  | .thrown _ => init
  | .result _ (some _) => init
  | .result data none => data.getD []

/-- A food diary row: calories plus optional macro grams, as selected from
the `food_entries` table. -/
structure FoodEntry where
  name : String
  calories : ℚ
  protein : Option ℚ
  carbs : Option ℚ
  fat : Option ℚ
deriving DecidableEq

/-- The four daily totals shown by the FoodTracker. -/
structure NutritionTotals where
  calories : ℚ
  protein : ℚ
  carbs : ℚ
  fat : ℚ
deriving DecidableEq

/-- The spec's `aggregateNutrition`: the FoodTracker's four `reduce` calls,
each folding from 0 and coalescing a null macro to 0 (`entry.protein || 0`). -/
def aggregateNutrition (entries : List FoodEntry) : NutritionTotals where
  calories := entries.foldl (fun sum e => sum + e.calories) 0
  protein := entries.foldl (fun sum e => sum + e.protein.getD 0) 0
  carbs := entries.foldl (fun sum e => sum + e.carbs.getD 0) 0
  fat := entries.foldl (fun sum e => sum + e.fat.getD 0) 0

/-- Session timer state of WorkoutSession: the `isRunning`, `startTime`
(milliseconds) and `elapsedTime` (seconds) pieces of state. -/
structure TimerState where
  isRunning : Bool
  startTime : Int
  elapsedTime : Int
deriving DecidableEq

/-- The interval body `Math.floor((Date.now() - startTime) / 1000)`. -/
def displayElapsed (now : Int) (s : TimerState) : Int := (now - s.startTime).fdiv 1000

/-- `handleStart`: begin running from `now` with zero elapsed seconds. -/
def handleStart (now : Int) : TimerState := ⟨true, now, 0⟩

/-- `handlePause`: stop the clock; `startTime` and `elapsedTime` are kept. -/
def handlePause (s : TimerState) : TimerState := { s with isRunning := false }

/-- `handleResume`: restart with `setStartTime(Date.now() - elapsedTime * 1000)`. -/
def handleResume (now : Int) (s : TimerState) : TimerState :=
  { s with isRunning := true, startTime := now - s.elapsedTime * 1000 }

/-- The interval effect: only while running does it recompute `elapsedTime`. -/
def tick (now : Int) (s : TimerState) : TimerState :=
  if s.isRunning then { s with elapsedTime := displayElapsed now s } else s

/-- One row of the mock food lookup table. -/
structure FoodSearchResult where
  name : String
  calories : ℚ
  protein : ℚ
  carbs : ℚ
  fat : ℚ
deriving DecidableEq

/-- Whether the pattern matches at the start of the text. -/
def leadMatch : List Char → List Char → Bool
  | [], _ => true
  | _ :: _, [] => false
  | p :: ps, c :: cs => p == c && leadMatch ps cs

/-- Whether the pattern occurs contiguously anywhere in the text, the model
of JS `String.prototype.includes`. -/
def hasSub (pat : List Char) : List Char → Bool
  | [] => leadMatch pat []
  | c :: cs => leadMatch pat (c :: cs) || hasSub pat cs

/-- `s.includes(pat)` on strings. -/
def strIncludes (s pat : String) : Bool := hasSub pat.data s.data

/-- The static `foodDatabase` of `getMockFoodResults`, keys paired with rows. -/
def foodDatabase : List (String × FoodSearchResult) :=
  [("apple", ⟨"Apple (medium)", 95, 0.5, 25, 0.3⟩),
   ("banana", ⟨"Banana (medium)", 105, 1.3, 27, 0.4⟩),
   ("chicken", ⟨"Chicken Breast (100g)", 165, 31, 0, 3.6⟩),
   ("rice", ⟨"White Rice (1 cup cooked)", 205, 4.3, 45, 0.4⟩),
   ("broccoli", ⟨"Broccoli (1 cup)", 25, 3, 5, 0.3⟩),
   ("egg", ⟨"Egg (large)", 70, 6, 0.6, 5⟩),
   ("salmon", ⟨"Salmon (100g)", 208, 22, 0, 13⟩),
   ("oatmeal", ⟨"Oatmeal (1 cup cooked)", 154, 6, 28, 3⟩),
   ("avocado", ⟨"Avocado (half)", 160, 2, 9, 15⟩),
   ("yogurt", ⟨"Greek Yogurt (1 cup)", 130, 23, 9, 0⟩)]

/-- The keyword matches of `getMockFoodResults`: entries whose key or
lowercased display name contains the lowercased query. -/
def mockMatches (query : String) : List FoodSearchResult :=
  (foodDatabase.filter
    (fun e => strIncludes e.1 query.toLower || strIncludes e.2.name.toLower query.toLower)).map
    (fun e => e.2)

/-- `getMockFoodResults`: keyword matches, a single fabricated
"(estimated)" entry when nothing matches, capped at five results. -/
def getMockFoodResults (query : String) : List FoodSearchResult :=
  let results := mockMatches query
  (if results = [] then [⟨query ++ " (estimated)", 150, 5, 20, 6⟩] else results).take 5

/-- The run of `k` consecutive completion days ending at `today`, as day numbers. -/
def consecDays (today : Int) (k : Nat) : List Int :=
  (List.range k).map (fun i : Nat => today - (i : Int))

/-- The run of `k` consecutive daily completions ending at `today`, as records. -/
def consecRun (today : Int) (k : Nat) : List WorkoutRow :=
  (List.range k).map (fun i : Nat => onDay (today - (i : Int)))

/-! ### Helper lemmas about first-occurrence deduplication -/

theorem mem_dedupFirstAux_iff {x : Int} (l : List Int) :
    ∀ seen, x ∈ dedupFirstAux seen l ↔ (x ∈ l ∧ x ∉ seen) := by
  induction l with
  | nil => intro seen; simp [dedupFirstAux]
  | cons a l ih =>
    intro seen
    by_cases ha : a ∈ seen
    · rw [dedupFirstAux, if_pos ha, ih seen]
      constructor
      · rintro ⟨h1, h2⟩
        exact ⟨List.mem_cons_of_mem _ h1, h2⟩
      · rintro ⟨h1, h2⟩
        rcases List.mem_cons.mp h1 with rfl | h1
        · exact absurd ha h2
        · exact ⟨h1, h2⟩
    · rw [dedupFirstAux, if_neg ha]
      simp only [List.mem_cons, ih (a :: seen)]
      constructor
      · rintro (rfl | ⟨h1, h2⟩)
        · exact ⟨Or.inl rfl, ha⟩
        · exact ⟨Or.inr h1, fun hx => h2 (Or.inr hx)⟩
      · rintro ⟨rfl | h1, h2⟩
        · exact Or.inl rfl
        · rcases eq_or_ne x a with rfl | hxa
          · exact Or.inl rfl
          · exact Or.inr ⟨h1, fun h => h.elim hxa h2⟩

theorem mem_dedupFirst {x : Int} (l : List Int) : x ∈ dedupFirst l ↔ x ∈ l := by
  rw [dedupFirst, mem_dedupFirstAux_iff]
  simp

theorem nodup_dedupFirstAux (l : List Int) : ∀ seen, (dedupFirstAux seen l).Nodup := by
  induction l with
  | nil => intro seen; simp [dedupFirstAux]
  | cons a l ih =>
    intro seen
    by_cases ha : a ∈ seen
    · rw [dedupFirstAux, if_pos ha]
      exact ih seen
    · rw [dedupFirstAux, if_neg ha]
      refine List.nodup_cons.mpr ⟨?_, ih (a :: seen)⟩
      intro hmem
      exact ((mem_dedupFirstAux_iff l (a :: seen)).mp hmem).2 (List.mem_cons_self _ _)

theorem nodup_dedupFirst (l : List Int) : (dedupFirst l).Nodup :=
  nodup_dedupFirstAux l []

theorem dedupFirstAux_eq_self (l : List Int) :
    ∀ seen, l.Nodup → (∀ x ∈ l, x ∉ seen) → dedupFirstAux seen l = l := by
  induction l with
  | nil => intro seen _ _; rfl
  | cons a l ih =>
    intro seen hnd hdisj
    rw [dedupFirstAux, if_neg (hdisj a (List.mem_cons_self a l))]
    congr 1
    refine ih _ (List.nodup_cons.mp hnd).2 ?_
    intro x hx
    simp only [List.mem_cons, not_or]
    refine ⟨?_, hdisj x (List.mem_cons_of_mem _ hx)⟩
    rintro rfl
    exact (List.nodup_cons.mp hnd).1 hx

theorem dedupFirst_idem (l : List Int) : dedupFirst (dedupFirst l) = dedupFirst l :=
  dedupFirstAux_eq_self _ [] (nodup_dedupFirst l) (fun x _ => List.not_mem_nil x)

/-! ### Helper lemmas about the descending sort -/

theorem sortDesc_sorted (l : List Int) : (sortDesc l).Sorted (fun a b => a ≥ b) :=
  List.sorted_insertionSort _ l

theorem sortDesc_perm (l : List Int) : List.Perm (sortDesc l) l :=
  List.perm_insertionSort _ l

theorem sortDesc_eq_of_sorted {l : List Int} (h : l.Sorted (fun a b => a ≥ b)) :
    sortDesc l = l :=
  List.Sorted.insertionSort_eq h

theorem sortDesc_dedupFirst_eq {l₁ l₂ : List Int} (h : ∀ x, x ∈ l₁ ↔ x ∈ l₂) :
    sortDesc (dedupFirst l₁) = sortDesc (dedupFirst l₂) := by
  have hn₁ : (sortDesc (dedupFirst l₁)).Nodup :=
    (sortDesc_perm (dedupFirst l₁)).symm.nodup (nodup_dedupFirst l₁)
  have hn₂ : (sortDesc (dedupFirst l₂)).Nodup :=
    (sortDesc_perm (dedupFirst l₂)).symm.nodup (nodup_dedupFirst l₂)
  have hperm : List.Perm (sortDesc (dedupFirst l₁)) (sortDesc (dedupFirst l₂)) := by
    refine (List.perm_ext_iff_of_nodup hn₁ hn₂).mpr ?_
    intro a
    rw [(sortDesc_perm _).mem_iff, (sortDesc_perm _).mem_iff, mem_dedupFirst, mem_dedupFirst]
    exact h a
  exact List.eq_of_perm_of_sorted hperm (sortDesc_sorted _) (sortDesc_sorted _)

/-! ### Helper lemmas about the streak walk -/

theorem streakLoop_break (d today : Int) (rest : List Int) (s : Nat)
    (h0 : today - d ≠ 0) (h1 : today - d ≠ 1) : streakLoop (d :: rest) today s = s := by
  simp only [streakLoop]
  rw [if_neg h0, if_neg h1]

theorem dayOf_onDay (d : Int) : dayOf (onDay d).completed_at = d := by
  show (d * msPerDay).fdiv msPerDay = d
  exact Int.mul_fdiv_cancel d (by decide)

theorem consecDays_succ (today : Int) (k : Nat) :
    consecDays today (k + 1) = today :: consecDays (today - 1) k := by
  rw [consecDays, consecDays, List.range_succ_eq_map, List.map_cons, List.map_map]
  congr 1
  · simp
  · refine List.map_congr_left ?_
    intro i _
    simp only [Function.comp_apply]
    push_cast
    ring

theorem mem_consecDays_le {x today : Int} {k : Nat} (h : x ∈ consecDays today k) :
    x ≤ today := by
  simp only [consecDays, List.mem_map, List.mem_range] at h
  obtain ⟨i, _, rfl⟩ := h
  omega

theorem consecDays_sorted (today : Int) (k : Nat) :
    (consecDays today k).Sorted (fun a b => a ≥ b) := by
  induction k generalizing today with
  | zero => simp [consecDays]
  | succ k ih =>
    rw [consecDays_succ]
    refine List.sorted_cons.mpr ⟨?_, ih (today - 1)⟩
    intro b hb
    have := mem_consecDays_le hb
    omega

theorem consecDays_nodup (today : Int) (k : Nat) : (consecDays today k).Nodup := by
  induction k generalizing today with
  | zero => simp [consecDays]
  | succ k ih =>
    rw [consecDays_succ]
    refine List.nodup_cons.mpr ⟨?_, ih (today - 1)⟩
    intro hmem
    have := mem_consecDays_le hmem
    omega

theorem streakLoop_consecDays (k : Nat) :
    ∀ (today : Int) (s : Nat), streakLoop (consecDays today k) today s = s + k := by
  induction k with
  | zero => intro t s; simp [consecDays, streakLoop]
  | succ k ih =>
    intro t s
    rw [consecDays_succ]
    simp only [streakLoop]
    rw [if_pos (by omega), ih (t - 1) (s + 1)]
    omega

theorem consecRun_succ (today : Int) (k : Nat) :
    consecRun today (k + 1) = onDay today :: consecRun (today - 1) k := by
  rw [consecRun, consecRun, List.range_succ_eq_map, List.map_cons, List.map_map]
  congr 1
  · simp
  · refine List.map_congr_left ?_
    intro i _
    simp only [Function.comp_apply]
    congr 1
    push_cast
    ring

theorem map_dayOf_consecRun (today : Int) (k : Nat) :
    (consecRun today k).map (fun w => dayOf w.completed_at) = consecDays today k := by
  rw [consecRun, consecDays, List.map_map]
  refine List.map_congr_left ?_
  intro i _
  simp only [Function.comp_apply]
  exact dayOf_onDay _

theorem calculateStreak_consecRun (today : Int) (k : Nat) :
    calculateStreak (consecRun today k) today = k := by
  cases k with
  | zero => rfl
  | succ k =>
    rw [consecRun_succ]
    show streakLoop (sortDesc (dedupFirst
      ((onDay today :: consecRun (today - 1) k).map (fun w => dayOf w.completed_at)))) today 0 =
      k + 1
    rw [← consecRun_succ, map_dayOf_consecRun]
    rw [dedupFirst, dedupFirstAux_eq_self _ [] (consecDays_nodup today (k + 1))
      (fun x _ => List.not_mem_nil x)]
    rw [sortDesc_eq_of_sorted (consecDays_sorted today (k + 1))]
    rw [streakLoop_consecDays (k + 1) today 0]
    omega

theorem streakLoop_nil (cur : Int) (s : Nat) : streakLoop [] cur s = s := rfl

theorem streakLoop_zero_step (d : Int) (rest : List Int) (cur : Int) (s : Nat)
    (h : cur - d = 0) : streakLoop (d :: rest) cur s = streakLoop rest (cur - 1) (s + 1) := by
  simp only [streakLoop]
  rw [if_pos h]

theorem streakLoop_one_step (d : Int) (rest : List Int) (cur : Int) (s : Nat)
    (h0 : cur - d ≠ 0) (h1 : cur - d = 1) :
    streakLoop (d :: rest) cur s = streakLoop rest d (s + 1) := by
  simp only [streakLoop]
  rw [if_neg h0, if_pos h1]

theorem streakLoop_zero_of_all_le (dates : List Int) (today : Int)
    (h : ∀ d ∈ dates, d ≤ today - 2) : streakLoop dates today 0 = 0 := by
  cases dates with
  | nil => rfl
  | cons d rest =>
    have hd := h d (List.mem_cons_self _ _)
    exact streakLoop_break d today rest 0 (by omega) (by omega)

theorem foldl_add_eq_sum {α : Type} (f : α → ℚ) (l : List α) :
    ∀ a : ℚ, l.foldl (fun sum e => sum + f e) a = a + (l.map f).sum := by
  induction l with
  | nil => intro a; simp
  | cons x l ih =>
    intro a
    simp only [List.foldl_cons, List.map_cons, List.sum_cons, ih]
    ring

/-! ### Claim theorems -/

/-- Claim C1, counterexample: the strict "must include today" policy is false
on the code. For records completed yesterday and the day before (and none
today), `calculateStreak` returns 2, not 0: the first loop iteration also
accepts a date one day before the reference date. -/
theorem streak_without_today_not_zero :
    calculateStreak [onDay (-1), onDay (-2)] 0 ≠ 0 := by decide

/-- Claim C1 (amended): when every completion date is at least two days
before the reference date the streak is 0, but a most recent completion
exactly one day before the reference date starts the streak, so
`computeStreak([today-1, today-2], today) = 2`. -/
theorem calculateStreak_two_day_gap_zero (today : Int) (rs : List WorkoutRow)
    (h : ∀ w ∈ rs, dayOf w.completed_at ≤ today - 2) :
    calculateStreak rs today = 0 ∧
    calculateStreak [onDay (today - 1), onDay (today - 2)] today = 2 := by
  constructor
  · cases rs with
    | nil => rfl
    | cons w ws =>
      show streakLoop
        (sortDesc (dedupFirst ((w :: ws).map (fun x => dayOf x.completed_at)))) today 0 = 0
      refine streakLoop_zero_of_all_le _ today ?_
      intro d hd
      rw [(sortDesc_perm _).mem_iff, mem_dedupFirst, List.mem_map] at hd
      obtain ⟨w', hw', rfl⟩ := hd
      exact h w' hw'
  · show streakLoop (sortDesc (dedupFirst
      ([onDay (today - 1), onDay (today - 2)].map (fun x => dayOf x.completed_at)))) today 0 = 2
    simp only [List.map_cons, List.map_nil, dayOf_onDay]
    have hne : (today : Int) - 2 ≠ today - 1 := by omega
    have hd : dedupFirst [today - 1, today - 2] = [today - 1, today - 2] := by
      simp [dedupFirst, dedupFirstAux, hne]
    have hsort : ([today - 1, today - 2] : List Int).Sorted (fun a b => a ≥ b) := by
      refine List.sorted_cons.mpr ⟨?_, List.sorted_singleton _⟩
      intro b hb
      rw [List.mem_singleton] at hb
      subst hb
      omega
    rw [hd, sortDesc_eq_of_sorted hsort]
    rw [streakLoop_one_step _ _ _ _ (by omega) (by omega),
      streakLoop_one_step _ _ _ _ (by omega) (by omega), streakLoop_nil]

/-- Witness for the amended C1 theorem at a concrete input. -/
theorem calculateStreak_two_day_gap_zero_check :
    (∀ w ∈ ([onDay (-3), onDay (-5)] : List WorkoutRow), dayOf w.completed_at ≤ 0 - 2) ∧
    (calculateStreak [onDay (-3), onDay (-5)] 0 = 0 ∧
      calculateStreak [onDay (0 - 1), onDay (0 - 2)] 0 = 2) :=
  ⟨by decide, calculateStreak_two_day_gap_zero 0 [onDay (-3), onDay (-5)] (by decide)⟩

/-- Claim C2, counterexample: a two-day gap right after the reference date
does not stop the streak at 1. `calculateStreak([today, today-2], today)`
is 2: after the day-0 match the cursor moves to yesterday, and a date one
day before the cursor (two days before today) still extends the streak. -/
theorem streak_gap_after_today_not_one :
    calculateStreak [onDay 0, onDay (-2)] 0 ≠ 1 := by decide

/-- Claim C2 (amended): the streak stops at the first date more than one day
earlier than the walk cursor, not at the first gap between consecutive
completion dates. The cursor moves one day back on an exact match and onto
the matched date on a one-day-earlier match, so
`computeStreak([today, today-2], today) = 2` while
`computeStreak([today, today-3], today) = 1`. -/
theorem calculateStreak_gap_tolerance (today : Int) :
    calculateStreak [onDay today, onDay (today - 2)] today = 2 ∧
    calculateStreak [onDay today, onDay (today - 3)] today = 1 := by
  constructor
  · show streakLoop (sortDesc (dedupFirst
      ([onDay today, onDay (today - 2)].map (fun x => dayOf x.completed_at)))) today 0 = 2
    simp only [List.map_cons, List.map_nil, dayOf_onDay]
    have hne : (today : Int) - 2 ≠ today := by omega
    have hd : dedupFirst [today, today - 2] = [today, today - 2] := by
      simp [dedupFirst, dedupFirstAux, hne]
    have hsort : ([today, today - 2] : List Int).Sorted (fun a b => a ≥ b) := by
      refine List.sorted_cons.mpr ⟨?_, List.sorted_singleton _⟩
      intro b hb
      rw [List.mem_singleton] at hb
      subst hb
      omega
    rw [hd, sortDesc_eq_of_sorted hsort]
    rw [streakLoop_zero_step _ _ _ _ (by omega),
      streakLoop_one_step _ _ _ _ (by omega) (by omega), streakLoop_nil]
  · show streakLoop (sortDesc (dedupFirst
      ([onDay today, onDay (today - 3)].map (fun x => dayOf x.completed_at)))) today 0 = 1
    simp only [List.map_cons, List.map_nil, dayOf_onDay]
    have hne : (today : Int) - 3 ≠ today := by omega
    have hd : dedupFirst [today, today - 3] = [today, today - 3] := by
      simp [dedupFirst, dedupFirstAux, hne]
    have hsort : ([today, today - 3] : List Int).Sorted (fun a b => a ≥ b) := by
      refine List.sorted_cons.mpr ⟨?_, List.sorted_singleton _⟩
      intro b hb
      rw [List.mem_singleton] at hb
      subst hb
      omega
    rw [hd, sortDesc_eq_of_sorted hsort]
    rw [streakLoop_zero_step _ _ _ _ (by omega),
      streakLoop_break _ _ _ _ (by omega) (by omega)]

/-- Claim C3 (confirmed): the streak depends only on which calendar days
carry a completion — duplicate completion dates are deduplicated before
counting — and `computeStreak([today, today, today-1], today) = 2`. -/
theorem calculateStreak_dedups_dates (today : Int) (rs₁ rs₂ : List WorkoutRow)
    (h : ∀ d : Int, d ∈ rs₁.map (fun w => dayOf w.completed_at) ↔
        d ∈ rs₂.map (fun w => dayOf w.completed_at)) :
    calculateStreak rs₁ today = calculateStreak rs₂ today ∧
    calculateStreak [onDay today, onDay today, onDay (today - 1)] today = 2 := by
  constructor
  · cases rs₁ with
    | nil =>
      cases rs₂ with
      | nil => rfl
      | cons w ws =>
        exfalso
        have := (h (dayOf w.completed_at)).mpr (by simp)
        simp at this
    | cons w ws =>
      cases rs₂ with
      | nil =>
        exfalso
        have := (h (dayOf w.completed_at)).mp (by simp)
        simp at this
      | cons w' ws' =>
        show streakLoop
            (sortDesc (dedupFirst ((w :: ws).map (fun x => dayOf x.completed_at)))) today 0 =
          streakLoop
            (sortDesc (dedupFirst ((w' :: ws').map (fun x => dayOf x.completed_at)))) today 0
        rw [sortDesc_dedupFirst_eq h]
  · show streakLoop (sortDesc (dedupFirst
      ([onDay today, onDay today, onDay (today - 1)].map
        (fun x => dayOf x.completed_at)))) today 0 = 2
    simp only [List.map_cons, List.map_nil, dayOf_onDay]
    have hne : (today : Int) - 1 ≠ today := by omega
    have hd : dedupFirst [today, today, today - 1] = [today, today - 1] := by
      simp [dedupFirst, dedupFirstAux, hne]
    have hsort : ([today, today - 1] : List Int).Sorted (fun a b => a ≥ b) := by
      refine List.sorted_cons.mpr ⟨?_, List.sorted_singleton _⟩
      intro b hb
      rw [List.mem_singleton] at hb
      subst hb
      omega
    rw [hd, sortDesc_eq_of_sorted hsort]
    rw [streakLoop_zero_step _ _ _ _ (by omega),
      streakLoop_zero_step _ _ _ _ (by omega), streakLoop_nil]

/-- Witness for the C3 theorem: two completions on day 0 count the same as
one completion on day 0. -/
theorem calculateStreak_dedups_dates_check :
    (∀ d : Int, d ∈ ([onDay 0, onDay 0] : List WorkoutRow).map (fun w => dayOf w.completed_at) ↔
        d ∈ ([onDay 0] : List WorkoutRow).map (fun w => dayOf w.completed_at)) ∧
    (calculateStreak [onDay 0, onDay 0] 0 = calculateStreak [onDay 0] 0 ∧
      calculateStreak [onDay 0, onDay 0, onDay (0 - 1)] 0 = 2) :=
  ⟨by intro d; simp [onDay, dayOf],
    calculateStreak_dedups_dates 0 [onDay 0, onDay 0] [onDay 0] (by intro d; simp [onDay, dayOf])⟩

/-- Claim C4 (confirmed): the streak of an empty record list is 0, and the
streak of a run of `k` consecutive daily completions ending at the reference
date is `k`; in particular `computeStreak([today], today) = 1` and
`computeStreak([today, today-1, today-2], today) = 3`. -/
theorem calculateStreak_base_and_consecutive (today : Int) (k : Nat) :
    calculateStreak [] today = 0 ∧
    calculateStreak [onDay today] today = 1 ∧
    calculateStreak [onDay today, onDay (today - 1), onDay (today - 2)] today = 3 ∧
    calculateStreak (consecRun today k) today = k := by
  have r1 : List.range 1 = [0] := rfl
  have r3 : List.range 3 = [0, 1, 2] := rfl
  have e1 : consecRun today 1 = [onDay today] := by
    rw [consecRun, r1]
    norm_num
  have e3 : consecRun today 3 = [onDay today, onDay (today - 1), onDay (today - 2)] := by
    rw [consecRun, r3]
    norm_num
  refine ⟨rfl, ?_, ?_, calculateStreak_consecRun today k⟩
  · have h1 := calculateStreak_consecRun today 1
    rw [e1] at h1
    exact h1
  · have h3 := calculateStreak_consecRun today 3
    rw [e3] at h3
    exact h3

/-- Claim C5 (confirmed): the week window uses a strict `< 7` boundary — a
completion exactly 7 days before the reference instant is excluded from
`countRecent` with `windowDays = 7`, while one 6 days before is included. -/
theorem countRecent_week_boundary (now : Int) :
    countRecent [⟨"", now - 7 * msPerDay, 0⟩] now 7 = 0 ∧
    countRecent [⟨"", now - 6 * msPerDay, 0⟩] now 7 = 1 := by
  have h7 : differenceInDays now (now - 7 * msPerDay) = 7 := by
    rw [differenceInDays, show now - (now - 7 * msPerDay) = 7 * msPerDay from by ring]
    decide
  have h6 : differenceInDays now (now - 6 * msPerDay) = 6 := by
    rw [differenceInDays, show now - (now - 6 * msPerDay) = 6 * msPerDay from by ring]
    decide
  constructor
  · rw [countRecent]
    simp [h7]
  · rw [countRecent]
    simp [h6]

/-- Claim C6 (confirmed): the FoodTracker totals are the exact sums of each
numeric field, a null macro counting as zero; concretely, entries with
calories 95/protein null and calories 105/protein 1.3 total calories 200
and protein 1.3. -/
theorem aggregateNutrition_sums (entries : List FoodEntry) :
    (aggregateNutrition entries).calories = (entries.map (fun e => e.calories)).sum ∧
    (aggregateNutrition entries).protein = (entries.map (fun e => e.protein.getD 0)).sum ∧
    (aggregateNutrition entries).carbs = (entries.map (fun e => e.carbs.getD 0)).sum ∧
    (aggregateNutrition entries).fat = (entries.map (fun e => e.fat.getD 0)).sum ∧
    (aggregateNutrition [⟨"Apple (medium)", 95, none, some 25, some 0.3⟩,
        ⟨"Banana (medium)", 105, some 1.3, some 27, some 0.4⟩]).calories = 200 ∧
    (aggregateNutrition [⟨"Apple (medium)", 95, none, some 25, some 0.3⟩,
        ⟨"Banana (medium)", 105, some 1.3, some 27, some 0.4⟩]).protein = 1.3 := by
  refine ⟨?_, ?_, ?_, ?_, ?_, ?_⟩
  · rw [show (aggregateNutrition entries).calories =
        entries.foldl (fun sum e => sum + e.calories) 0 from rfl, foldl_add_eq_sum, zero_add]
  · rw [show (aggregateNutrition entries).protein =
        entries.foldl (fun sum e => sum + e.protein.getD 0) 0 from rfl, foldl_add_eq_sum, zero_add]
  · rw [show (aggregateNutrition entries).carbs =
        entries.foldl (fun sum e => sum + e.carbs.getD 0) 0 from rfl, foldl_add_eq_sum, zero_add]
  · rw [show (aggregateNutrition entries).fat =
        entries.foldl (fun sum e => sum + e.fat.getD 0) 0 from rfl, foldl_add_eq_sum, zero_add]
  · norm_num [aggregateNutrition]
  · norm_num [aggregateNutrition]

/-- Claim C7 (confirmed): pausing freezes the elapsed seconds (ticks during
the pause change nothing), and resuming at any instant `n` redefines the
start as `n - elapsedTime * 1000`, so the elapsed time displayed at the
resume instant equals the pre-pause elapsed time exactly; since each cycle
preserves it exactly, any number of pause cycles preserves it. -/
theorem pause_resume_preserves_elapsed (s : TimerState) (p n : Int) :
    (tick p (handlePause s)).elapsedTime = s.elapsedTime ∧
    (handleResume n (handlePause s)).elapsedTime = s.elapsedTime ∧
    displayElapsed n (handleResume n (handlePause s)) = s.elapsedTime := by
  refine ⟨?_, rfl, ?_⟩
  · rw [tick, handlePause]
    simp
  · show (n - (n - s.elapsedTime * 1000)).fdiv 1000 = s.elapsedTime
    rw [show n - (n - s.elapsedTime * 1000) = s.elapsedTime * 1000 from by ring]
    exact Int.mul_fdiv_cancel _ (by decide)

/-- Claim C8 (confirmed): a rejected read leaves the dashboard at its
initial (all-zero, empty-list) stats, a rejected or error-carrying routines
read leaves the previous routines state, and null data coalesces to an
empty list; the handlers consume a single read outcome, so no retry occurs. -/
theorem read_failures_default_state (today : Int) (msg : String)
    (foodRead : ReadOutcome (List ℚ)) (wdata : Option (List WorkoutRow))
    (werr : Option String) (init : List WorkoutRow) (rdata : Option (List WorkoutRow)) :
    fetchDashboardData today (.thrown msg) foodRead = initialStats ∧
    fetchDashboardData today (.result wdata werr) (.thrown msg) = initialStats ∧
    fetchRoutinesState init (.thrown msg) = init ∧
    fetchRoutinesState init (.result rdata (some msg)) = init ∧
    fetchRoutinesState init (.result none none) = [] :=
  ⟨rfl, rfl, rfl, rfl, rfl⟩

/-- Claim C9 (confirmed): the dashboard's "This Week" count is taken over
the 5-element `recentWorkouts` slice, so it never exceeds 5 — even when,
as in the concrete 6-workout input below, more than 5 completions lie
within the 7-day window. -/
theorem thisWeekCount_le_five (ws : List WorkoutRow) (today now : Int)
    (werr : Option String) (cdata : Option (List ℚ)) (cerr : Option String) :
    thisWeekCount (fetchDashboardData today (.result (some ws) werr) (.result cdata cerr)) now
      ≤ 5 ∧
    thisWeekCount (fetchDashboardData 0 (.result (some (List.replicate 6 (onDay 0))) none)
      (.result none none)) 0 = 5 ∧
    countRecent (List.replicate 6 (onDay 0)) 0 7 = 6 := by
  refine ⟨?_, by decide, by decide⟩
  show countRecent (recentWorkouts ws) now 7 ≤ 5
  rw [countRecent, recentWorkouts]
  exact le_trans (List.length_filter_le _ _) (List.length_take_le 5 ws)

/-- Claim C10 (confirmed): for every non-empty query the mock food search
returns between 1 and 5 results, and when no keyword matches it returns
exactly the fabricated "(estimated)" entry with calories 150, protein 5,
carbs 20, fat 6. -/
theorem getMockFoodResults_bounds (query : String) (h : query ≠ "") :
    1 ≤ (getMockFoodResults query).length ∧
    (getMockFoodResults query).length ≤ 5 ∧
    (mockMatches query = [] →
      getMockFoodResults query = [⟨query ++ " (estimated)", 150, 5, 20, 6⟩]) := by
  have key : getMockFoodResults query =
      (if mockMatches query = [] then [⟨query ++ " (estimated)", 150, 5, 20, 6⟩]
        else mockMatches query).take 5 := rfl
  rcases hm : mockMatches query with _ | ⟨a, l⟩
  · rw [key, hm, if_pos rfl]
    refine ⟨by simp, by simp, fun _ => by simp⟩
  · rw [key, hm, if_neg (by simp)]
    refine ⟨?_, ?_, ?_⟩
    · simp only [List.length_take, List.length_cons]
      omega
    · simp only [List.length_take, List.length_cons]
      omega
    · intro hcontra
      exact absurd hcontra (by simp)

/-- Witness for the C10 theorem at the concrete query "zzz", which matches
nothing and yields exactly the fabricated entry. -/
theorem getMockFoodResults_bounds_check :
    ("zzz" : String) ≠ "" ∧
    (1 ≤ (getMockFoodResults "zzz").length ∧
      (getMockFoodResults "zzz").length ≤ 5 ∧
      (mockMatches "zzz" = [] →
        getMockFoodResults "zzz" = [⟨"zzz" ++ " (estimated)", 150, 5, 20, 6⟩])) :=
  ⟨by decide, getMockFoodResults_bounds "zzz" (by decide)⟩

end GymLogger
